import Mathlib

/-!
Shallow embedding of the crypto-trading-journal core (src/app/page.tsx and
the earlier local variant in src/unnamed/part_000): trade record
normalization, profit/loss computation, filtering, sorting, statistics,
the live PnL preview, and form-submission validation.

Numbers are modelled by the rationals; the JavaScript number line with its
non-finite values (NaN, Infinity, -Infinity) is modelled by JSNum so that
the Number.isFinite guards in the source are represented faithfully.
JavaScript parseFloat and Date parsing are kept abstract: definitions take
a parse function as a parameter, since the claims only depend on whether a
parse yields a finite number (resp. a valid date), never on the concrete
parsing algorithm.
-/

namespace CryptoJournal

/-- Model of a JavaScript number: a finite rational or one of the three
non-finite values. -/
inductive JSNum where
  | fin : ℚ → JSNum
  | nan : JSNum
  | posInf : JSNum
  | negInf : JSNum
deriving DecidableEq, Repr

/-- Number.isFinite. -/
def JSNum.isFinite : JSNum → Bool
  | .fin _ => true
  | _ => false

/-- Projection to the rational carried by a finite JS number; non-finite
values go to 0 (used only where the source has already established
finiteness or deliberately coerces to zero). -/
def JSNum.toQ : JSNum → ℚ
  | .fin q => q
  | _ => 0

/-- The JavaScript comparison v is less than or equal to 0: false on NaN
and on positive infinity. -/
def JSNum.nonPos : JSNum → Bool
  | .fin q => decide (q ≤ 0)
  | .nan => false
  | .posInf => false
  | .negInf => true

/-- A raw field of a stored row: a (finite, since rows travel as JSON)
number, a string, or null/absent. Mirrors the TradeRow field type
string | number | null. -/
inductive Value where
  | num : ℚ → Value
  | str : String → Value
  | null : Value
deriving DecidableEq, Repr

/-- Trade direction. -/
inductive TradeDirection where
  | Long
  | Short
deriving DecidableEq, Repr

/-- Direction filter: a direction or All. -/
inductive DirectionFilter where
  | Long
  | Short
  | All
deriving DecidableEq, Repr

/-- Canonical in-memory trade, the output shape of the Normalizer. -/
structure Trade where
  id : String
  pair : String
  direction : TradeDirection
  strategy : String
  entryPrice : ℚ
  exitPrice : ℚ
  pnl : ℚ
  date : String
  sentiment : String
  positionSize : ℚ
deriving DecidableEq, Repr

/-- Raw stored row as delivered by the persistence collaborator. -/
structure TradeRow where
  id : String
  pair : String
  direction : TradeDirection
  strategy : String
  entry_price : Value
  exit_price : Value
  pnl : Value
  position_size : Value
  sentiment : Option String
  trade_date : String
deriving DecidableEq, Repr

/-- In-progress form state: numeric fields are strings. -/
structure TradeFormData where
  pair : String
  direction : TradeDirection
  strategy : String
  entryPrice : String
  exitPrice : String
  positionSize : String
  date : String
  sentiment : String
deriving DecidableEq, Repr

/-- The FilterSpec held by the client. -/
structure TradeFilters where
  pair : String
  direction : DirectionFilter
  strategy : String
  startDate : String
  endDate : String
deriving DecidableEq, Repr

/-- The six sort keys. -/
inductive SortKey where
  | dateDesc
  | dateAsc
  | pnlDesc
  | pnlAsc
  | sizeDesc
  | sizeAsc
deriving DecidableEq, Repr

/-- Payload sent to the persistence collaborator on create/update. -/
structure Payload where
  pair : String
  direction : TradeDirection
  strategy : String
  entry_price : ℚ
  exit_price : ℚ
  position_size : ℚ
  pnl : ℚ
  sentiment : Option String
  trade_date : String
deriving DecidableEq, Repr

/-! String helpers modelling the JavaScript methods used by the source. -/

/-- ASCII whitespace recognized by String.prototype.trim (restricted to
the characters that occur in this application's inputs). -/
def isWSChar (c : Char) : Bool :=
  c = ' ' || c = '\t' || c = '\n' || c = '\r'

/-- Characters of a string with whitespace removed from both ends. -/
def trimChars (cs : List Char) : List Char :=
  ((cs.dropWhile isWSChar).reverse.dropWhile isWSChar).reverse

/-- String.prototype.trim. -/
def jsTrim (s : String) : String :=
  ⟨trimChars s.data⟩

/-- ASCII lowercase of one character, as toLowerCase acts on the
characters appearing in pair/strategy labels. -/
def lowerChar (c : Char) : Char :=
  if c.toNat ≥ 65 ∧ c.toNat ≤ 90 then Char.ofNat (c.toNat + 32) else c

/-- String.prototype.toLowerCase. -/
def jsLower (s : String) : String :=
  ⟨s.data.map lowerChar⟩

/-- Does the first list start with the second? -/
def leadMatch : List Char → List Char → Bool
  | _, [] => true
  | [], _ :: _ => false
  | a :: as, b :: bs => a = b && leadMatch as bs

/-- Does the haystack contain the needle as a contiguous run? -/
def containsSeq (hay needle : List Char) : Bool :=
  match hay with
  | [] => leadMatch [] needle
  | _ :: rest => leadMatch hay needle || containsSeq rest needle

/-- String.prototype.includes. -/
def strIncludes (hay needle : String) : Bool :=
  containsSeq hay.data needle.data

/-! The Normalizer. -/

/-- parseNumericField from page.tsx: numbers pass through, strings go
through parseFloat and coerce to 0 unless the result is finite, null
becomes 0. The parseFloat behaviour is the parameter pf. -/
def parseNumericField (pf : String → JSNum) : Value → ℚ
  | .num n => n
  | .str s => match pf s with
    | .fin q => q
    | _ => 0
  | .null => 0

/-- mapRowToTrade from page.tsx. -/
def mapRowToTrade (pf : String → JSNum) (row : TradeRow) : Trade :=
  { id := row.id
    pair := row.pair
    direction := row.direction
    strategy := row.strategy
    entryPrice := parseNumericField pf row.entry_price
    exitPrice := parseNumericField pf row.exit_price
    pnl := parseNumericField pf row.pnl
    date := row.trade_date
    sentiment := row.sentiment.getD ""
    positionSize := parseNumericField pf row.position_size }

/-! Profit/loss. -/

/-- calculatePnL from page.tsx and part_000: if any input is non-finite
return 0, otherwise (exit - entry) times size for Long and
(entry - exit) times size for Short. -/
def calculatePnL (direction : TradeDirection) (entry ex size : JSNum) : JSNum :=
  match entry, ex, size with
  | .fin e, .fin x, .fin s =>
    .fin ((match direction with
      | .Long => x - e
      | .Short => e - x) * s)
  | _, _, _ => .fin 0

/-- The sample trades of part_000 (initialTrades), with pnl derived by
calculatePnL exactly as in the source. -/
def initialTrades : List Trade :=
  [ { id := "1", pair := "BTC / USDT", direction := .Long,
      strategy := "Trend Break", entryPrice := 61250, exitPrice := 63100,
      date := "2024-04-12", sentiment := "high conviction",
      positionSize := 1/2,
      pnl := (calculatePnL .Long (.fin 61250) (.fin 63100) (.fin (1/2))).toQ },
    { id := "2", pair := "ETH / USDT", direction := .Short,
      strategy := "Mean Revert", entryPrice := 3120, exitPrice := 3040,
      date := "2024-04-10", sentiment := "watch gas fees",
      positionSize := 20,
      pnl := (calculatePnL .Short (.fin 3120) (.fin 3040) (.fin 20)).toQ },
    { id := "3", pair := "SOL / USDT", direction := .Long,
      strategy := "Breakout", entryPrice := 142, exitPrice := 136,
      date := "2024-04-07", sentiment := "late entry",
      positionSize := 30,
      pnl := (calculatePnL .Long (.fin 142) (.fin 136) (.fin 30)).toQ },
    { id := "4", pair := "BTC / USDT", direction := .Short,
      strategy := "Range Bounce", entryPrice := 59880, exitPrice := 58920,
      date := "2024-04-03", sentiment := "double confirmation",
      positionSize := 3/10,
      pnl := (calculatePnL .Short (.fin 59880) (.fin 58920) (.fin (3/10))).toQ } ]

/-! The Aggregation Engine: filtering. Date parsing — the JavaScript
expression new Date(s).getTime(), a finite millisecond count or NaN — is
the abstract parameter pd : String → Option Int, none standing for NaN. -/

/-- createDefaultFilters from page.tsx. -/
def createDefaultFilters : TradeFilters :=
  { pair := "", direction := .All, strategy := "", startDate := "", endDate := "" }

/-- Pair clause of filteredTrades: return false when filters.pair is
truthy (non-empty) and the lowercased trade pair does not contain the
trimmed, lowercased filter string. -/
def pairPass (f : TradeFilters) (t : Trade) : Bool :=
  if f.pair ≠ "" then strIncludes (jsLower t.pair) (jsLower (jsTrim f.pair))
  else true

/-- Strategy clause of filteredTrades, identical rule against strategy. -/
def strategyPass (f : TradeFilters) (t : Trade) : Bool :=
  if f.strategy ≠ "" then strIncludes (jsLower t.strategy) (jsLower (jsTrim f.strategy))
  else true

/-- Direction clause of filteredTrades. -/
def directionPass (f : TradeFilters) (t : Trade) : Bool :=
  match f.direction, t.direction with
  | .All, _ => true
  | .Long, .Long => true
  | .Short, .Short => true
  | _, _ => false

/-- Start-date clause: reject only when filters.startDate is non-empty,
parses to a valid time, the trade date also parses, and the trade time is
strictly before the start time (a NaN on either side never rejects). -/
def startPass (pd : String → Option ℤ) (f : TradeFilters) (t : Trade) : Bool :=
  if f.startDate ≠ "" then
    match pd f.startDate, pd t.date with
    | some st, some tt => decide (st ≤ tt)
    | _, _ => true
  else true

/-- End-date clause, symmetric to startPass. -/
def endPass (pd : String → Option ℤ) (f : TradeFilters) (t : Trade) : Bool :=
  if f.endDate ≠ "" then
    match pd f.endDate, pd t.date with
    | some et, some tt => decide (tt ≤ et)
    | _, _ => true
  else true

/-- The predicate of the filteredTrades callback: the source's chain of
early false returns, equivalently the conjunction of the five clauses. -/
def tradePass (pd : String → Option ℤ) (f : TradeFilters) (t : Trade) : Bool :=
  pairPass f t && strategyPass f t && directionPass f t &&
    startPass pd f t && endPass pd f t

/-- filteredTrades from page.tsx. -/
def filteredTrades (pd : String → Option ℤ) (f : TradeFilters) (ts : List Trade) : List Trade :=
  ts.filter (tradePass pd f)

/-! Sorting. -/

/-- Result of subtracting two getTime values, as a JS number. -/
def timeDiff (a b : Option ℤ) : JSNum :=
  match a, b with
  | some x, some y => .fin ((x - y : ℤ) : ℚ)
  | _, _ => .nan

/-- The comparator of sortedTrades for a given sort key. -/
def tradeComp (pd : String → Option ℤ) (key : SortKey) (a b : Trade) : JSNum :=
  match key with
  | .dateAsc => timeDiff (pd a.date) (pd b.date)
  | .pnlDesc => .fin (b.pnl - a.pnl)
  | .pnlAsc => .fin (a.pnl - b.pnl)
  | .sizeDesc => .fin (b.positionSize - a.positionSize)
  | .sizeAsc => .fin (a.positionSize - b.positionSize)
  | .dateDesc => timeDiff (pd b.date) (pd a.date)

/-- Whether a comparator outcome keeps the first element first: JS sort
places a before b when the comparator result is negative and leaves the
original (stable) order when it is zero or NaN. -/
def keepsOrder (c : JSNum) : Bool :=
  match c with
  | .fin q => decide (q ≤ 0)
  | .nan => true
  | .posInf => false
  | .negInf => true

/-- sortedTrades from page.tsx: a stable sort of the filtered list under
the comparator for the active sort key. -/
def sortedTrades (pd : String → Option ℤ) (key : SortKey) (ts : List Trade) : List Trade :=
  ts.mergeSort (fun a b => keepsOrder (tradeComp pd key a b))

/-! Statistics, computed over the filtered list. -/

/-- totalPnL: reduce with + over pnl starting from 0. -/
def totalPnL (ts : List Trade) : ℚ :=
  ts.foldl (fun acc t => acc + t.pnl) 0

/-- winningTrades: length of the filter by pnl strictly positive. -/
def winningTrades (ts : List Trade) : ℕ :=
  (ts.filter (fun t => decide (0 < t.pnl))).length

/-- losingTrades = totalTrades - winningTrades. -/
def losingTrades (ts : List Trade) : ℕ :=
  ts.length - winningTrades ts

/-- longTrades: count of Long trades. -/
def longTrades (ts : List Trade) : ℕ :=
  (ts.filter (fun t => t.direction = TradeDirection.Long)).length

/-- shortTrades = totalTrades - longTrades. -/
def shortTrades (ts : List Trade) : ℕ :=
  ts.length - longTrades ts

/-- totalTrades: length of the filtered list. -/
def totalTrades (ts : List Trade) : ℕ :=
  ts.length

/-- avgPnl: totalPnL / totalTrades when the list is non-empty, else 0. -/
def avgPnl (ts : List Trade) : ℚ :=
  if 0 < ts.length then totalPnL ts / (ts.length : ℚ) else 0

/-- Math.round on a finite value: nearest integer, halves toward
positive infinity. -/
def jsRound (q : ℚ) : ℤ :=
  ⌊q + 1/2⌋

/-- winRate: Math.round of the winning percentage when the list is
non-empty, else 0. -/
def winRate (ts : List Trade) : ℤ :=
  if 0 < ts.length then jsRound ((winningTrades ts : ℚ) / (ts.length : ℚ) * 100)
  else 0

/-! The live PnL preview and form submission. parseFloat is the abstract
parameter pf : String → JSNum. -/

/-- calculatedPnL from page.tsx and part_000: null (none) when entry,
exit or size fails to parse to a finite number or size is non-positive,
otherwise calculatePnL on the parsed values. -/
def calculatedPnL (pf : String → JSNum) (f : TradeFormData) : Option JSNum :=
  let parsedEntry := pf f.entryPrice
  let parsedExit := pf f.exitPrice
  let parsedSize := pf f.positionSize
  if !parsedEntry.isFinite || !parsedExit.isFinite || !parsedSize.isFinite
      || parsedSize.nonPos then
    none
  else
    some (calculatePnL f.direction parsedEntry parsedExit parsedSize)

/-- Validation and payload construction of handleSubmit: none when a
validation check fails (empty trimmed pair or strategy, non-finite entry
or exit, non-finite or non-positive size), otherwise the payload sent to
the collaborator. -/
def handleSubmitPayload (pf : String → JSNum) (f : TradeFormData) : Option Payload :=
  if jsTrim f.pair = "" then none
  else if jsTrim f.strategy = "" then none
  else
    let parsedEntry := pf f.entryPrice
    let parsedExit := pf f.exitPrice
    let parsedSize := pf f.positionSize
    let entryPrice := if parsedEntry.isFinite then parsedEntry.toQ else 0
    let exitPrice := if parsedExit.isFinite then parsedExit.toQ else 0
    let positionSize := if parsedSize.isFinite then parsedSize.toQ else 0
    if !parsedEntry.isFinite || !parsedExit.isFinite then none
    else if !parsedSize.isFinite || parsedSize.nonPos then none
    else
      some { pair := f.pair
             direction := f.direction
             strategy := f.strategy
             entry_price := entryPrice
             exit_price := exitPrice
             position_size := positionSize
             pnl := (calculatePnL f.direction (.fin entryPrice) (.fin exitPrice)
               (.fin positionSize)).toQ
             sentiment := if jsTrim f.sentiment ≠ "" then some f.sentiment else none
             trade_date := f.date }

/-- The local handleSubmit of part_000: on validation failure the trade
list is untouched; on success an edit replaces the fields of the trade
with the editing id and a create prepends a new trade. -/
def handleSubmitLocal (pf : String → JSNum) (f : TradeFormData)
    (editingTradeId : Option String) (newId : String)
    (trades : List Trade) : List Trade :=
  match handleSubmitPayload pf f with
  | none => trades
  | some p =>
    match editingTradeId with
    | some tid =>
      trades.map (fun t =>
        if t.id = tid then
          { t with
            pair := p.pair
            direction := p.direction
            strategy := p.strategy
            entryPrice := p.entry_price
            exitPrice := p.exit_price
            pnl := p.pnl
            date := p.trade_date
            sentiment := f.sentiment
            positionSize := p.position_size }
        else t)
    | none =>
      { id := newId
        pair := p.pair
        direction := p.direction
        strategy := p.strategy
        entryPrice := p.entry_price
        exitPrice := p.exit_price
        pnl := p.pnl
        date := p.trade_date
        sentiment := f.sentiment
        positionSize := p.position_size } :: trades

/-! Concrete inputs used to instantiate the theorems below. -/

/-- A parseFloat behaviour defined on the sample form's strings. -/
def pfSample : String → JSNum := fun s =>
  if s = "3120" then .fin 3120
  else if s = "3040" then .fin 3040
  else if s = "20" then .fin 20
  else if s = "61250" then .fin 61250
  else .nan

/-- A parseFloat behaviour on which every string fails to parse. -/
def pfNone : String → JSNum := fun _ => .nan

/-- A Date behaviour on which every string is an invalid date. -/
def pdNone : String → Option ℤ := fun _ => none

/-- A Date behaviour defined on a few sample date strings. -/
def pdSample : String → Option ℤ := fun s =>
  if s = "2024-04-01" then some 1
  else if s = "2024-04-10" then some 10
  else if s = "2024-04-12" then some 12
  else none

/-- The sample create form for the second initial trade. -/
def sampleForm : TradeFormData :=
  { pair := "ETH / USDT"
    direction := .Short
    strategy := "Mean Revert"
    entryPrice := "3120"
    exitPrice := "3040"
    positionSize := "20"
    date := "2024-04-10"
    sentiment := "" }

/-- The payload handleSubmit builds from sampleForm under pfSample. -/
def samplePayload : Payload :=
  { pair := "ETH / USDT"
    direction := .Short
    strategy := "Mean Revert"
    entry_price := 3120
    exit_price := 3040
    position_size := 20
    pnl := (calculatePnL .Short (.fin 3120) (.fin 3040) (.fin 20)).toQ
    sentiment := none
    trade_date := "2024-04-10" }

/-- A raw stored row with textual numerics and an absent sentiment. -/
def sampleRow : TradeRow :=
  { id := "9"
    pair := "BTC / USDT"
    direction := .Long
    strategy := "Trend Break"
    entry_price := .str "oops"
    exit_price := .num 63100
    pnl := .null
    position_size := .num 20
    sentiment := none
    trade_date := "2024-04-12" }

/-- A small winning Long trade used as a concrete instance. -/
def tSmall : Trade :=
  { id := "a"
    pair := "BTC / USDT"
    direction := .Long
    strategy := "Trend Break"
    entryPrice := 0
    exitPrice := 1
    pnl := 1
    date := "2024-04-10"
    sentiment := ""
    positionSize := 1 }

/-- A larger winning Short trade used as a concrete instance. -/
def tBig : Trade :=
  { id := "b"
    pair := "ETH / USDT"
    direction := .Short
    strategy := "Mean Revert"
    entryPrice := 3
    exitPrice := 1
    pnl := 2
    date := "2024-04-12"
    sentiment := ""
    positionSize := 1 }

/-- A filter with a parseable start bound and an unparseable end bound. -/
def sampleFilters : TradeFilters :=
  { pair := ""
    direction := .All
    strategy := ""
    startDate := "2024-04-01"
    endDate := "bogus" }

/-- A filter with an active (padded) strategy search string. -/
def sampleForm2Filters : TradeFilters :=
  { pair := ""
    direction := .All
    strategy := " Trend "
    startDate := ""
    endDate := "" }

/-- A form whose pair is whitespace-only, failing validation. -/
def badForm : TradeFormData :=
  { pair := "   "
    direction := .Long
    strategy := "Mean Revert"
    entryPrice := "3120"
    exitPrice := "3040"
    positionSize := "20"
    date := "2024-04-10"
    sentiment := "" }

/-! Helper lemmas shared by the claim theorems. -/

theorem JSNum.isFinite_iff {v : JSNum} : v.isFinite = true ↔ ∃ q, v = .fin q := by
  cases v <;> simp [JSNum.isFinite]

theorem calculatePnL_long (e x s : ℚ) :
    calculatePnL .Long (.fin e) (.fin x) (.fin s) = .fin ((x - e) * s) := rfl

theorem calculatePnL_short (e x s : ℚ) :
    calculatePnL .Short (.fin e) (.fin x) (.fin s) = .fin ((e - x) * s) := rfl

theorem calculatePnL_fin (d : TradeDirection) (e x s : ℚ) :
    calculatePnL d (.fin e) (.fin x) (.fin s)
      = .fin ((if d = TradeDirection.Long then x - e else e - x) * s) := by
  cases d <;> simp [calculatePnL]

theorem handleSubmitPayload_some {pf : String → JSNum} {f : TradeFormData} {p : Payload}
    (h : handleSubmitPayload pf f = some p) :
    ∃ e x s : ℚ, pf f.entryPrice = .fin e ∧ pf f.exitPrice = .fin x ∧
      pf f.positionSize = .fin s ∧ p.direction = f.direction ∧
      p.entry_price = e ∧ p.exit_price = x ∧ p.position_size = s ∧
      p.pnl = (if f.direction = TradeDirection.Long then x - e else e - x) * s := by
  simp only [handleSubmitPayload] at h
  split at h
  · exact absurd h (by simp)
  split at h
  · exact absurd h (by simp)
  split at h
  · exact absurd h (by simp)
  split at h
  · exact absurd h (by simp)
  rename_i hex hsz
  simp only [Bool.or_eq_true, not_or, Bool.not_eq_true, Bool.not_eq_false,
    Bool.not_eq_false'] at hex hsz
  obtain ⟨e, hpe⟩ := JSNum.isFinite_iff.mp hex.1
  obtain ⟨x, hpx⟩ := JSNum.isFinite_iff.mp hex.2
  obtain ⟨s, hps⟩ := JSNum.isFinite_iff.mp hsz.1
  refine ⟨e, x, s, hpe, hpx, hps, ?_⟩
  obtain rfl := Option.some.inj h
  simp [hpe, hpx, hps, JSNum.isFinite, JSNum.toQ, calculatePnL_fin]

/-- C1: for every trade persisted by create or update the payload's
profitLoss satisfies the direction formula on the payload's own prices
and size; calculatePnL realizes the formula on all finite inputs; and the
two sample trades evaluate to 925 and 1600. -/
theorem pnl_formula_C1 :
    (∀ (d : TradeDirection) (e x s : ℚ),
      calculatePnL d (.fin e) (.fin x) (.fin s)
        = .fin (if d = TradeDirection.Long then (x - e) * s else (e - x) * s)) ∧
    (∀ (pf : String → JSNum) (f : TradeFormData) (p : Payload),
      handleSubmitPayload pf f = some p →
        p.pnl = if p.direction = TradeDirection.Long
          then (p.exit_price - p.entry_price) * p.position_size
          else (p.entry_price - p.exit_price) * p.position_size) ∧
    calculatePnL .Long (.fin 61250) (.fin 63100) (.fin (1/2)) = .fin 925 ∧
    calculatePnL .Short (.fin 3120) (.fin 3040) (.fin 20) = .fin 1600 ∧
    (initialTrades.map Trade.pnl).take 2 = [925, 1600] := by
  refine ⟨?_, ?_, ?_, ?_, ?_⟩
  · intro d e x s
    cases d <;> simp [calculatePnL]
  · intro pf f p h
    obtain ⟨e, x, s, _, _, _, hdir, hep, hxp, hsp, hpnl⟩ := handleSubmitPayload_some h
    rw [hdir, hep, hxp, hsp, hpnl]
    split_ifs <;> rfl
  · rw [calculatePnL_long]; norm_num
  · rw [calculatePnL_short]; norm_num
  · simp [initialTrades, calculatePnL_long, calculatePnL_short, JSNum.toQ]
    norm_num

/-- Witness for C1 at the sample create form under the sample parse
function. -/
theorem pnl_formula_C1_witness :
    samplePayload.pnl = if samplePayload.direction = TradeDirection.Long
      then (samplePayload.exit_price - samplePayload.entry_price) * samplePayload.position_size
      else (samplePayload.entry_price - samplePayload.exit_price) * samplePayload.position_size :=
  pnl_formula_C1.2.1 pfSample sampleForm samplePayload rfl

/-- C2: the Normalizer is total by construction and: already-numeric
fields pass through, textual fields take their parsed value when the
parse yields a finite number and 0 otherwise, absent fields become 0,
and an absent sentiment becomes the empty string. -/
theorem normalizer_C2 :
    (∀ (pf : String → JSNum) (n : ℚ), parseNumericField pf (.num n) = n) ∧
    (∀ (pf : String → JSNum) (s : String) (q : ℚ),
      pf s = .fin q → parseNumericField pf (.str s) = q) ∧
    (∀ (pf : String → JSNum) (s : String),
      (pf s).isFinite = false → parseNumericField pf (.str s) = 0) ∧
    (∀ (pf : String → JSNum), parseNumericField pf .null = 0) ∧
    (∀ (pf : String → JSNum) (row : TradeRow),
      row.sentiment = none → (mapRowToTrade pf row).sentiment = "") := by
  refine ⟨fun _ _ => rfl, ?_, ?_, fun _ => rfl, ?_⟩
  · intro pf s q h
    simp [parseNumericField, h]
  · intro pf s h
    rcases v : pf s with q | _ | _ | _ <;>
      simp_all [parseNumericField, JSNum.isFinite]
  · intro pf row h
    simp [mapRowToTrade, h]

/-- Witness for C2 on a concrete row whose entry price fails to parse
and whose sentiment is absent. -/
theorem normalizer_C2_witness :
    parseNumericField pfNone (.str "oops") = 0 ∧
    parseNumericField pfSample (.str "61250") = 61250 ∧
    (mapRowToTrade pfNone sampleRow).sentiment = "" :=
  ⟨normalizer_C2.2.2.1 pfNone "oops" rfl,
   normalizer_C2.2.1 pfSample "61250" 61250 (by decide),
   normalizer_C2.2.2.2.2 pfNone sampleRow rfl⟩

/-- C10: calculatePnL returns exactly 0 whenever any input is
non-finite, and the payload's persisted pnl is always the guarded
calculatePnL result. -/
theorem pnl_guard_C10 :
    (∀ (d : TradeDirection) (e x s : JSNum),
      e.isFinite = false ∨ x.isFinite = false ∨ s.isFinite = false →
        calculatePnL d e x s = .fin 0) ∧
    (∀ (pf : String → JSNum) (f : TradeFormData) (p : Payload),
      handleSubmitPayload pf f = some p →
        JSNum.fin p.pnl = calculatePnL f.direction (.fin p.entry_price)
          (.fin p.exit_price) (.fin p.position_size)) := by
  constructor
  · intro d e x s h
    rcases e with q | _ | _ | _ <;> rcases x with q2 | _ | _ | _ <;>
      rcases s with q3 | _ | _ | _ <;>
      simp_all [calculatePnL, JSNum.isFinite]
  · intro pf f p h
    obtain ⟨e, x, s, _, _, _, hdir, hep, hxp, hsp, hpnl⟩ := handleSubmitPayload_some h
    rw [hep, hxp, hsp, hpnl, calculatePnL_fin]

/-- Witness for C10 at a NaN entry price and at the sample payload. -/
theorem pnl_guard_C10_witness :
    calculatePnL .Long .nan (.fin 1) (.fin 1) = .fin 0 ∧
    JSNum.fin samplePayload.pnl = calculatePnL sampleForm.direction
      (.fin samplePayload.entry_price) (.fin samplePayload.exit_price)
      (.fin samplePayload.position_size) :=
  ⟨pnl_guard_C10.1 .Long .nan (.fin 1) (.fin 1) (Or.inl rfl),
   pnl_guard_C10.2 pfSample sampleForm samplePayload rfl⟩

theorem totalPnL_eq_sum (ts : List Trade) : totalPnL ts = (ts.map Trade.pnl).sum := by
  have aux : ∀ (l : List Trade) (init : ℚ),
      l.foldl (fun acc t => acc + t.pnl) init = init + (l.map Trade.pnl).sum := by
    intro l
    induction l with
    | nil => intro init; simp
    | cons a l ih => intro init; simp [ih, add_assoc]
  simpa using aux ts 0

/-- C3: each statistic agrees with its reference definition, and the
empty filtered set yields winRate 0 and avgPnl 0 with no division
fault. -/
theorem stats_C3 (ts : List Trade) :
    totalTrades ts = ts.length ∧
    totalPnL ts = (ts.map Trade.pnl).sum ∧
    winningTrades ts = ts.countP (fun t => decide (0 < t.pnl)) ∧
    losingTrades ts = totalTrades ts - winningTrades ts ∧
    (0 < ts.length →
      winRate ts = jsRound ((winningTrades ts : ℚ) / (totalTrades ts : ℚ) * 100) ∧
      avgPnl ts = totalPnL ts / (totalTrades ts : ℚ)) ∧
    (ts.length = 0 → winRate ts = 0 ∧ avgPnl ts = 0) := by
  refine ⟨rfl, totalPnL_eq_sum ts, ?_, rfl, ?_, ?_⟩
  · simp [winningTrades, List.countP_eq_length_filter]
  · intro h
    constructor
    · simp [winRate, h, totalTrades]
    · simp [avgPnl, h, totalTrades]
  · intro h
    constructor
    · simp [winRate, h]
    · simp [avgPnl, h]

/-- Witness for C3 at the four sample trades and at the empty list. -/
theorem stats_C3_witness :
    (winRate initialTrades
        = jsRound ((winningTrades initialTrades : ℚ) / (totalTrades initialTrades : ℚ) * 100) ∧
      avgPnl initialTrades = totalPnL initialTrades / (totalTrades initialTrades : ℚ)) ∧
    (winRate [] = 0 ∧ avgPnl [] = 0) :=
  ⟨(stats_C3 initialTrades).2.2.2.2.1 (by decide),
   (stats_C3 []).2.2.2.2.2 rfl⟩

/-- C4: a trade is in the filtered result exactly when it is in the
input and passes every predicate, and the default (all-disabled) filters
leave the list unchanged, order included. -/
theorem filter_conjunctive_C4 (pd : String → Option ℤ) (f : TradeFilters)
    (ts : List Trade) (t : Trade) :
    (t ∈ filteredTrades pd f ts ↔
      t ∈ ts ∧ pairPass f t = true ∧ strategyPass f t = true ∧
        directionPass f t = true ∧ startPass pd f t = true ∧ endPass pd f t = true) ∧
    filteredTrades pd createDefaultFilters ts = ts := by
  constructor
  · simp [filteredTrades, List.mem_filter, tradePass, and_assoc]
  · rw [filteredTrades, List.filter_eq_self]
    intro a _
    simp [tradePass, pairPass, strategyPass, directionPass, startPass, endPass,
      createDefaultFilters]

/-- Witness for C4 at the default filters over the sample trades. -/
theorem filter_conjunctive_C4_witness :
    (tSmall ∈ filteredTrades pdNone createDefaultFilters initialTrades ↔
      tSmall ∈ initialTrades ∧ pairPass createDefaultFilters tSmall = true ∧
        strategyPass createDefaultFilters tSmall = true ∧
        directionPass createDefaultFilters tSmall = true ∧
        startPass pdNone createDefaultFilters tSmall = true ∧
        endPass pdNone createDefaultFilters tSmall = true) ∧
    filteredTrades pdNone createDefaultFilters initialTrades = initialTrades :=
  filter_conjunctive_C4 pdNone createDefaultFilters initialTrades tSmall

theorem containsSeq_nil_needle (l : List Char) : containsSeq l [] = true := by
  cases l <;> simp [containsSeq, leadMatch]

theorem strIncludes_empty (s : String) : strIncludes s "" = true :=
  containsSeq_nil_needle s.data

theorem jsLower_empty : jsLower "" = "" := rfl

theorem jsTrim_empty : jsTrim "" = "" := rfl

/-- C5: the pair predicate is vacuous exactly when the trimmed filter
string is empty (so a whitespace-only filter excludes nothing), and
otherwise is case-insensitive substring containment; the strategy
predicate obeys the identical rule. -/
theorem pair_strategy_C5 (f : TradeFilters) (t : Trade) :
    (jsTrim f.pair = "" → pairPass f t = true) ∧
    (jsTrim f.pair ≠ "" →
      (pairPass f t = true ↔
        strIncludes (jsLower t.pair) (jsLower (jsTrim f.pair)) = true)) ∧
    (jsTrim f.strategy = "" → strategyPass f t = true) ∧
    (jsTrim f.strategy ≠ "" →
      (strategyPass f t = true ↔
        strIncludes (jsLower t.strategy) (jsLower (jsTrim f.strategy)) = true)) := by
  refine ⟨?_, ?_, ?_, ?_⟩
  · intro h
    by_cases hfp : f.pair = ""
    · simp [pairPass, hfp]
    · simp [pairPass, hfp, h, jsLower_empty, strIncludes_empty]
  · intro h
    have hfp : f.pair ≠ "" := fun hfp => h (by rw [hfp, jsTrim_empty])
    simp [pairPass, hfp]
  · intro h
    by_cases hfs : f.strategy = ""
    · simp [strategyPass, hfs]
    · simp [strategyPass, hfs, h, jsLower_empty, strIncludes_empty]
  · intro h
    have hfs : f.strategy ≠ "" := fun hfs => h (by rw [hfs, jsTrim_empty])
    simp [strategyPass, hfs]

/-- Witness for C5: a whitespace-only pair filter excludes no trade, and
an active strategy filter is substring containment. -/
theorem pair_strategy_C5_witness :
    pairPass { createDefaultFilters with pair := "   " } tSmall = true ∧
    (strategyPass sampleForm2Filters tSmall = true ↔
      strIncludes (jsLower tSmall.strategy)
        (jsLower (jsTrim sampleForm2Filters.strategy)) = true) :=
  ⟨(pair_strategy_C5 { createDefaultFilters with pair := "   " } tSmall).1 (by decide),
   (pair_strategy_C5 sampleForm2Filters tSmall).2.2.2 (by decide)⟩

theorem startPass_iff (pd : String → Option ℤ) (f : TradeFilters) (t : Trade)
    (tt : ℤ) (h0 : pd "" = none) (htt : pd t.date = some tt) :
    startPass pd f t = true ↔ ∀ st, pd f.startDate = some st → st ≤ tt := by
  unfold startPass
  by_cases hs : f.startDate = ""
  · simp [hs, h0]
  · simp only [ne_eq, hs, not_false_iff, if_true, if_pos]
    cases hsd : pd f.startDate with
    | none => simp
    | some st => rw [htt]; simp

theorem endPass_iff (pd : String → Option ℤ) (f : TradeFilters) (t : Trade)
    (tt : ℤ) (h0 : pd "" = none) (htt : pd t.date = some tt) :
    endPass pd f t = true ↔ ∀ et, pd f.endDate = some et → tt ≤ et := by
  unfold endPass
  by_cases hs : f.endDate = ""
  · simp [hs, h0]
  · simp only [ne_eq, hs, not_false_iff, if_true, if_pos]
    cases hsd : pd f.endDate with
    | none => simp
    | some et => rw [htt]; simp

/-- C6: with a parseable trade date, the date-range predicate admits the
trade exactly when its time is at or after every parseable start bound
and at or before every parseable end bound; an unparseable bound never
rejects. -/
theorem date_filter_C6 (pd : String → Option ℤ) (f : TradeFilters) (t : Trade) :
    (pd "" = none → ∀ tt : ℤ, pd t.date = some tt →
      ((startPass pd f t && endPass pd f t) = true ↔
        (∀ st, pd f.startDate = some st → st ≤ tt) ∧
        (∀ et, pd f.endDate = some et → tt ≤ et))) ∧
    (pd f.startDate = none → startPass pd f t = true) ∧
    (pd f.endDate = none → endPass pd f t = true) := by
  refine ⟨?_, ?_, ?_⟩
  · intro h0 tt htt
    rw [Bool.and_eq_true, startPass_iff pd f t tt h0 htt, endPass_iff pd f t tt h0 htt]
  · intro hnone
    unfold startPass
    split
    · rw [hnone]
    · rfl
  · intro hnone
    unfold endPass
    split
    · rw [hnone]
    · rfl

/-- Witness for C6 at a filter with a parseable start bound and an
unparseable end bound, over a trade with a parseable date. -/
theorem date_filter_C6_witness :
    ((startPass pdSample sampleFilters tSmall && endPass pdSample sampleFilters tSmall) = true ↔
      (∀ st, pdSample sampleFilters.startDate = some st → st ≤ 10) ∧
      (∀ et, pdSample sampleFilters.endDate = some et → (10 : ℤ) ≤ et)) ∧
    endPass pdSample sampleFilters tSmall = true :=
  ⟨(date_filter_C6 pdSample sampleFilters tSmall).1 rfl 10 rfl,
   (date_filter_C6 pdSample sampleFilters tSmall).2.2 rfl⟩

theorem desc_le_iff (pd : String → Option ℤ) (a b : Trade) :
    keepsOrder (tradeComp pd .pnlDesc a b) = true ↔ b.pnl ≤ a.pnl := by
  simp [keepsOrder, tradeComp, sub_nonpos]

theorem asc_le_iff (pd : String → Option ℤ) (a b : Trade) :
    keepsOrder (tradeComp pd .pnlAsc a b) = true ↔ a.pnl ≤ b.pnl := by
  simp [keepsOrder, tradeComp, sub_nonpos]

theorem sortedDesc_pairwise (pd : String → Option ℤ) (ts : List Trade) :
    (sortedTrades pd .pnlDesc ts).Pairwise (fun a b => b.pnl ≤ a.pnl) := by
  have htrans : ∀ a b c : Trade, keepsOrder (tradeComp pd .pnlDesc a b) = true →
      keepsOrder (tradeComp pd .pnlDesc b c) = true →
      keepsOrder (tradeComp pd .pnlDesc a c) = true := by
    intro a b c hab hbc
    rw [desc_le_iff] at *
    exact le_trans hbc hab
  have htotal : ∀ a b : Trade, (keepsOrder (tradeComp pd .pnlDesc a b) ||
      keepsOrder (tradeComp pd .pnlDesc b a)) = true := by
    intro a b
    rw [Bool.or_eq_true, desc_le_iff, desc_le_iff]
    exact le_total b.pnl a.pnl
  have h := List.sorted_mergeSort htrans htotal ts
  exact h.imp (fun hab => (desc_le_iff pd _ _).mp hab)

theorem sortedAsc_pairwise (pd : String → Option ℤ) (ts : List Trade) :
    (sortedTrades pd .pnlAsc ts).Pairwise (fun a b => a.pnl ≤ b.pnl) := by
  have htrans : ∀ a b c : Trade, keepsOrder (tradeComp pd .pnlAsc a b) = true →
      keepsOrder (tradeComp pd .pnlAsc b c) = true →
      keepsOrder (tradeComp pd .pnlAsc a c) = true := by
    intro a b c hab hbc
    rw [asc_le_iff] at *
    exact le_trans hab hbc
  have htotal : ∀ a b : Trade, (keepsOrder (tradeComp pd .pnlAsc a b) ||
      keepsOrder (tradeComp pd .pnlAsc b a)) = true := by
    intro a b
    rw [Bool.or_eq_true, asc_le_iff, asc_le_iff]
    exact le_total a.pnl b.pnl
  have h := List.sorted_mergeSort htrans htotal ts
  exact h.imp (fun hab => (asc_le_iff pd _ _).mp hab)

theorem pair_sublist_of_mem {α : Type _} {a b : α} {l : List α} (hab : a ≠ b)
    (ha : a ∈ l) (hb : b ∈ l) : [a, b].Sublist l ∨ [b, a].Sublist l := by
  induction l with
  | nil => cases ha
  | cons c l ih =>
    rcases List.mem_cons.mp ha with rfl | ha2
    · left
      refine List.Sublist.cons₂ a (List.singleton_sublist.mpr ?_)
      rcases List.mem_cons.mp hb with h | h
      · exact absurd h.symm hab
      · exact h
    · rcases List.mem_cons.mp hb with rfl | hb2
      · right
        exact List.Sublist.cons₂ b (List.singleton_sublist.mpr ha2)
      · rcases ih ha2 hb2 with h | h
        · left; exact h.cons c
        · right; exact h.cons c

theorem sublist_rel {a b : Trade} {l : List Trade} {r : Trade → Trade → Prop}
    (hs : [a, b].Sublist l) (hp : l.Pairwise r) : r a b := by
  have := hp.sublist hs
  rw [List.pairwise_cons] at this
  exact this.1 b (by simp)

/-- C7: two trades with distinct pnl values appear in exactly reversed
relative order when the same list is sorted by pnl descending and by pnl
ascending. -/
theorem sort_reversal_C7 (pd : String → Option ℤ) (ts : List Trade)
    (a b : Trade) (h : a.pnl ≠ b.pnl) :
    ([a, b].Sublist (sortedTrades pd .pnlDesc ts) ↔
      [b, a].Sublist (sortedTrades pd .pnlAsc ts)) := by
  have hd := sortedDesc_pairwise pd ts
  have ha := sortedAsc_pairwise pd ts
  have hpermd : (sortedTrades pd .pnlDesc ts).Perm ts := List.mergeSort_perm ts _
  have hperma : (sortedTrades pd .pnlAsc ts).Perm ts := List.mergeSort_perm ts _
  have hab : a ≠ b := fun hh => h (by rw [hh])
  constructor
  · intro hs
    have hba : b.pnl ≤ a.pnl := sublist_rel hs hd
    have hlt : b.pnl < a.pnl := lt_of_le_of_ne hba (fun hh => h hh.symm)
    have hma : a ∈ sortedTrades pd .pnlAsc ts :=
      hperma.mem_iff.mpr (hpermd.mem_iff.mp (hs.subset (by simp)))
    have hmb : b ∈ sortedTrades pd .pnlAsc ts :=
      hperma.mem_iff.mpr (hpermd.mem_iff.mp (hs.subset (by simp)))
    rcases pair_sublist_of_mem hab hma hmb with h2 | h2
    · exact absurd (sublist_rel h2 ha) (not_le.mpr hlt)
    · exact h2
  · intro hs
    have hba : b.pnl ≤ a.pnl := sublist_rel hs ha
    have hlt : b.pnl < a.pnl := lt_of_le_of_ne hba (fun hh => h hh.symm)
    have hma : a ∈ sortedTrades pd .pnlDesc ts :=
      hpermd.mem_iff.mpr (hperma.mem_iff.mp (hs.subset (by simp)))
    have hmb : b ∈ sortedTrades pd .pnlDesc ts :=
      hpermd.mem_iff.mpr (hperma.mem_iff.mp (hs.subset (by simp)))
    rcases pair_sublist_of_mem hab hma hmb with h2 | h2
    · exact h2
    · exact absurd (sublist_rel h2 hd) (not_le.mpr hlt)

/-- Witness for C7 on a two-trade list with distinct pnl values. -/
theorem sort_reversal_C7_witness :
    [tBig, tSmall].Sublist (sortedTrades pdNone .pnlDesc [tSmall, tBig]) ↔
      [tSmall, tBig].Sublist (sortedTrades pdNone .pnlAsc [tSmall, tBig]) :=
  sort_reversal_C7 pdNone [tSmall, tBig] tBig tSmall (by decide)

/-- C8: the live preview is null exactly when entry or exit fails to
parse to a finite number or size fails to parse to a finite positive
number; otherwise it is the section-3 formula on the parsed values. -/
theorem preview_C8 (pf : String → JSNum) (f : TradeFormData) :
    (calculatedPnL pf f = none ↔
      (pf f.entryPrice).isFinite = false ∨ (pf f.exitPrice).isFinite = false ∨
      (pf f.positionSize).isFinite = false ∨
      (∃ s : ℚ, pf f.positionSize = .fin s ∧ s ≤ 0)) ∧
    (∀ e x s : ℚ, pf f.entryPrice = .fin e → pf f.exitPrice = .fin x →
      pf f.positionSize = .fin s → ¬s ≤ 0 →
      calculatedPnL pf f
        = some (.fin ((if f.direction = TradeDirection.Long then x - e else e - x) * s))) := by
  constructor
  · unfold calculatedPnL
    rcases hpe : pf f.entryPrice with e | _ | _ | _ <;>
      rcases hpx : pf f.exitPrice with x | _ | _ | _ <;>
        rcases hps : pf f.positionSize with s | _ | _ | _ <;>
          simp [JSNum.isFinite, JSNum.nonPos]
  · intro e x s he hx hs hsle
    simp [calculatedPnL, he, hx, hs, JSNum.isFinite, JSNum.nonPos, hsle,
      calculatePnL_fin]

/-- Witness for C8: the sample form previews the Short formula, and an
all-unparseable form previews null. -/
theorem preview_C8_witness :
    calculatedPnL pfSample sampleForm
        = some (.fin ((if sampleForm.direction = TradeDirection.Long
          then 3040 - 3120 else 3120 - 3040) * 20)) ∧
    calculatedPnL pfNone sampleForm = none :=
  ⟨(preview_C8 pfSample sampleForm).2 3120 3040 20 rfl rfl rfl (by decide),
   (preview_C8 pfNone sampleForm).1.mpr (Or.inl rfl)⟩

/-- C9: when a validation check fails (empty trimmed pair or strategy,
entry or exit not parsing to a finite number, or size not parsing to a
finite positive number) no payload is built — so no collaborator call is
made — and the in-memory trade collection is unchanged. -/
theorem submit_validation_C9 (pf : String → JSNum) (f : TradeFormData)
    (eid : Option String) (nid : String) (trades : List Trade)
    (h : jsTrim f.pair = "" ∨ jsTrim f.strategy = "" ∨
      (pf f.entryPrice).isFinite = false ∨ (pf f.exitPrice).isFinite = false ∨
      (pf f.positionSize).isFinite = false ∨
      (∃ s : ℚ, pf f.positionSize = .fin s ∧ s ≤ 0)) :
    handleSubmitPayload pf f = none ∧
    handleSubmitLocal pf f eid nid trades = trades := by
  have hp : handleSubmitPayload pf f = none := by
    unfold handleSubmitPayload
    split
    · rfl
    split
    · rfl
    rename_i h1 h2
    rcases h with h | h | h | h | h | ⟨s, hs, hsle⟩
    · exact absurd h h1
    · exact absurd h h2
    · simp [h]
    · simp [h]
    · by_cases hc : (!(pf f.entryPrice).isFinite || !(pf f.exitPrice).isFinite) = true
      · simp [hc]
      · simp [hc, h]
    · by_cases hc : (!(pf f.entryPrice).isFinite || !(pf f.exitPrice).isFinite) = true
      · simp [hc]
      · simp [hc, hs, JSNum.isFinite, JSNum.nonPos, hsle]
  exact ⟨hp, by simp [handleSubmitLocal, hp]⟩

/-- Witness for C9: a whitespace-only pair is rejected and the sample
collection is untouched. -/
theorem submit_validation_C9_witness :
    handleSubmitPayload pfSample badForm = none ∧
    handleSubmitLocal pfSample badForm none "5" initialTrades = initialTrades :=
  submit_validation_C9 pfSample badForm none "5" initialTrades (Or.inl (by decide))

end CryptoJournal
